import Mathlib

/-!
Verification of the order / payment core of the `mama_dye_dreams_backend`
e-commerce service (Express + Mongoose, TypeScript).

The embedding models the durable state (products with per-variant inventory,
orders, carts, the log of dispatched confirmation emails) as a record of
lists, and each HTTP handler of `src/routes/orders.ts` and
`src/routes/payment.ts` as a function `State → Resp α × State`, translated
line by line from the TypeScript source.  JavaScript string operations that
the handlers rely on (`padStart`, `parseInt`, `slice`, `trim`,
`replace(/\s+/g, ...)`, lexicographic string comparison as used by the
MongoDB sort on `orderNumber`) are defined over the character data of Lean
strings so that every definition evaluates inside the kernel.

Mongoose schema validation is part of the modelled semantics where it can
fire: the `Product` schema declares `stock: { min: 0 }` for every inventory
entry, so a `product.save()` that would persist a negative stock rejects
(the thrown error aborts the surrounding handler); this is modelled by
`updateStockOp` returning a success flag together with the (unchanged)
state.
-/

namespace MDD

/-! ## JavaScript primitives -/

/-- Value of a decimal digit character. -/
def digitVal (c : Char) : Nat := c.toNat - 48

/-- `String.prototype.padStart(n, c)`: left-pad to length `n`. -/
def jsPadStart (s : String) (n : Nat) (c : Char) : String :=
  String.mk (List.replicate (n - s.data.length) c ++ s.data)

/-- `parseInt(s)` restricted to what the handlers feed it: the longest
leading run of decimal digits, `none` when there is none (JS `NaN`). -/
def jsParseInt (s : String) : Option Nat :=
  let ds := s.data.takeWhile Char.isDigit
  if ds.isEmpty then none
  else some (ds.foldl (fun a c => a * 10 + digitVal c) 0)

/-- `s.slice(-n)`: the last `n` characters. -/
def jsSliceLast (s : String) (n : Nat) : String :=
  String.mk (s.data.drop (s.data.length - n))

/-- `String.prototype.startsWith`, evaluable in the kernel. -/
def strStartsWith (s p : String) : Bool :=
  s.data.take p.data.length == p.data

/-- Character-wise lexicographic `<` on strings; for the ASCII order numbers
this is exactly the order MongoDB uses for `sort({ orderNumber: -1 })`. -/
def charListLtb : List Char → List Char → Bool
  | [], [] => false
  | [], _ :: _ => true
  | _ :: _, [] => false
  | a :: as, b :: bs =>
    if a < b then true else if b < a then false else charListLtb as bs

def strLtb (s t : String) : Bool := charListLtb s.data t.data

/-- `String.prototype.trim()`. -/
def jsTrim (s : String) : String :=
  String.mk
    ((s.data.dropWhile Char.isWhitespace).reverse.dropWhile
        Char.isWhitespace).reverse

/-- `String.prototype.toUpperCase()` (ASCII fragment). -/
def jsUpper (s : String) : String := String.mk (s.data.map Char.toUpper)

/-- `replace(/\s+/g, '-')`: every maximal whitespace run becomes one dash. -/
def collapseWs : List Char → Bool → List Char
  | [], _ => []
  | c :: rest, prevWs =>
    if c.isWhitespace then
      (if prevWs then [] else ['-']) ++ collapseWs rest true
    else
      c :: collapseWs rest false

def jsReplaceWsDash (s : String) : String := String.mk (collapseWs s.data false)

/-- `s.replace(/\s+/g, '')`: drop all whitespace (used on phone numbers). -/
def cleanPhone (s : String) : String :=
  String.mk (s.data.filter (fun c => !c.isWhitespace))

/-- `Math.round(x / 100)` on an exact non-negative numerator. -/
def roundDiv100 (x : Nat) : Nat := (x + 50) / 100

/-! ## Data model (src/models) -/

/-- One `(color, size) → stock/sku` record of a product inventory ledger.
Stock is an integer: the schema validator (`min: 0`) guards persistence,
the type itself does not. -/
structure InventoryItem where
  color : String
  size : String
  stock : Int
  sku : String
deriving DecidableEq

structure Product where
  id : Nat
  name : String
  slug : String
  price : Nat
  images : List String
  inventory : List InventoryItem
deriving DecidableEq

/-- `productSchema.methods.checkStock`: first matching inventory entry has
at least the requested quantity, `false` when no entry matches. -/
def Product.checkStock (p : Product) (color size : String) (quantity : Nat) : Bool :=
  match p.inventory.find? (fun inv => inv.color == color && inv.size == size) with
  | some item => (quantity : Int) ≤ item.stock
  | none => false

/-- In-memory mutation `item.stock += delta` applied to the first matching
entry, as `Array.prototype.find` returns the first match. -/
def adjustStockFirst (delta : Int) : List InventoryItem → String → String → List InventoryItem
  | [], _, _ => []
  | inv :: rest, color, size =>
    if inv.color == color && inv.size == size then
      { inv with stock := inv.stock + delta } :: rest
    else
      inv :: adjustStockFirst delta rest color size

/-- The `stock: { min: 0 }` schema validator checked by `product.save()`. -/
def Product.validStock (p : Product) : Bool :=
  p.inventory.all (fun inv => decide (0 ≤ inv.stock))

inductive PaymentMethod
  | razorpay
  | cod
deriving DecidableEq

inductive PaymentStatus
  | pending
  | completed
  | failed
  | refunded
deriving DecidableEq

inductive OrderStatus
  | pending
  | paymentPending
  | confirmed
  | processing
  | shipped
  | outForDelivery
  | delivered
  | cancelled
  | refunded
  | returnRequested
deriving DecidableEq

structure Payment where
  method : PaymentMethod
  status : PaymentStatus
  razorpayOrderId : Option String
  razorpayPaymentId : Option String
  paidAt : Option Nat
deriving DecidableEq

structure OrderItem where
  product : Nat
  productName : String
  productImage : String
  color : String
  size : String
  quantity : Nat
  price : Nat
  sku : String
deriving DecidableEq

structure Address where
  fullName : String
  phone : String
  addressLine1 : String
  addressLine2 : Option String
  city : String
  state : String
  pincode : String
deriving DecidableEq

structure Order where
  id : Nat
  orderNumber : String
  user : Nat
  items : List OrderItem
  shippingAddress : Address
  billingAddress : Address
  subtotal : Nat
  shippingCost : Nat
  tax : Nat
  taxAmount : Nat
  discount : Nat
  total : Nat
  totalAmount : Nat
  payment : Payment
  orderStatus : OrderStatus
  paymentStatus : PaymentStatus
  deliveredAt : Option Nat
deriving DecidableEq

structure CartItem where
  product : Nat
  color : String
  size : String
  quantity : Nat
  price : Nat
deriving DecidableEq

structure Cart where
  user : Nat
  items : List CartItem
deriving DecidableEq

/-- The cart `subtotal` virtual: `reduce((t, i) => t + i.price * i.quantity, 0)`. -/
def Cart.subtotal (c : Cart) : Nat :=
  c.items.foldl (fun total item => total + item.price * item.quantity) 0

/-- Durable state: the document store plus the log of confirmation emails
(one entry per dispatched confirmation, keyed by order number). -/
structure State where
  products : List Product
  orders : List Order
  carts : List Cart
  emails : List String
deriving DecidableEq

def findProduct (st : State) (id : Nat) : Option Product :=
  st.products.find? (fun p => p.id == id)

def findOrder (st : State) (id : Nat) : Option Order :=
  st.orders.find? (fun o => o.id == id)

def findCart (st : State) (user : Nat) : Option Cart :=
  st.carts.find? (fun c => c.user == user)

def saveProduct (st : State) (p : Product) : State :=
  { st with products := st.products.map (fun q => if q.id == p.id then p else q) }

def saveOrder (st : State) (o : Order) : State :=
  { st with orders := st.orders.map (fun q => if q.id == o.id then o else q) }

def saveCart (st : State) (c : Cart) : State :=
  { st with carts := st.carts.map (fun q => if q.user == c.user then c else q) }

def insertOrder (st : State) (o : Order) : State :=
  { st with orders := st.orders ++ [o] }

def sendEmailLog (st : State) (orderNumber : String) : State :=
  { st with emails := st.emails ++ [orderNumber] }

/-- Result of a handler: the JSON success envelope or an error response. -/
inductive ApiError
  | missingParams
  | notFound
  | accessDenied
  | alreadyPaid
  | invalidSignature
  | emptyCart
  | insufficientStock
  | orderNumberFailed
  | cannotCancel
  | alreadyCancelled
  | alreadyProcessed
  | validationFailed
  | serverError
deriving DecidableEq

inductive Resp (α : Type)
  | ok (val : α)
  | err (e : ApiError)
deriving DecidableEq

def isOk {α : Type} : Resp α → Bool
  | .ok _ => true
  | .err _ => false

/-- `Product.updateStock` followed by `save()`: subtract `quantity` from the
first matching entry; nothing is saved when no entry matches (the source
method is a no-op then); the save rejects (returns `false`, state kept)
when the schema validator finds a negative stock. -/
def updateStockOp (st : State) (p : Product) (color size : String) (quantity : Nat) : Bool × State :=
  match p.inventory.find? (fun inv => inv.color == color && inv.size == size) with
  | none => (true, st)
  | some _ =>
    let updated :=
      { p with inventory := adjustStockFirst (-(quantity : Int)) p.inventory color size }
    if updated.validStock then (true, saveProduct st updated) else (false, st)

/-- The confirmation-time debit loop of `POST /api/payment/verify` and
`POST /api/payment/cod`: for each order item, find the product and call
`updateStock`; a rejected save throws, aborting the remaining iterations. -/
def debitItems : State → List OrderItem → Bool × State
  | st, [] => (true, st)
  | st, item :: rest =>
    match findProduct st item.product with
    | none => debitItems st rest
    | some p =>
      let r := updateStockOp st p item.color item.size item.quantity
      if r.1 then debitItems r.2 rest else (false, r.2)

/-- The stock-restore loop of `POST /api/orders/:id/cancel`:
`inventoryItem.stock += item.quantity` on the first matching entry, then
`product.save()` (validator as above); items whose product or entry is
missing are skipped. -/
def restoreItems : State → List OrderItem → Bool × State
  | st, [] => (true, st)
  | st, item :: rest =>
    match findProduct st item.product with
    | none => restoreItems st rest
    | some p =>
      match p.inventory.find? (fun inv => inv.color == item.color && inv.size == item.size) with
      | none => restoreItems st rest
      | some _ =>
        let updated :=
          { p with inventory := adjustStockFirst (item.quantity : Int) p.inventory item.color item.size }
        if updated.validStock then restoreItems (saveProduct st updated) rest
        else (false, st)

/-! ## Order sequencer (generateOrderNumber, src/routes/orders.ts) -/

/-- Environment defaults: `Number(process.env.FREE_SHIPPING_THRESHOLD) || 2000`
and `Number(process.env.TAX_RATE) || 18`. -/
def freeShippingThreshold : Nat := 2000

def taxRate : Nat := 18

/-- `Order.findOne({orderNumber: regex}).sort({orderNumber: -1})`: the
lexicographically greatest matching order number. -/
def lexMaxStr (l : List String) : Option String :=
  l.foldl
    (fun acc s =>
      match acc with
      | none => some s
      | some m => if strLtb m s then some s else some m)
    none

/-- The string the code renders for a sequence value: JS
`sequence.toString().padStart(4, '0')` (`none` renders `NaN`). -/
def seqRender : Option Nat → String
  | some n => jsPadStart (Nat.repr n) 4 '0'
  | none => jsPadStart "NaN" 4 '0'

/-- `generateOrderNumber()`: bucket prefix `MDD<YY><MM>`, parse the last
four characters of the greatest existing number in the bucket, add one
(start at 1 when the bucket is empty). -/
def generateOrderNumber (existing : List String) (year month : String) : String :=
  let pfx := "MDD" ++ year ++ month
  let lastNum := lexMaxStr (existing.filter (fun s => strStartsWith s pfx))
  let sequence : Option Nat :=
    match lastNum with
    | some s => (jsParseInt (jsSliceLast s 4)).map (fun n => n + 1)
    | none => some 1
  pfx ++ seqRender sequence

/-- The retry loop around `generateOrderNumber` (5 attempts, each
re-checking uniqueness against the store; deterministic regeneration). -/
def genOrderNumberRetry (st : State) (year month : String) : Nat → Resp String
  | 0 => .err .orderNumberFailed
  | fuel + 1 =>
    let num := generateOrderNumber (st.orders.map Order.orderNumber) year month
    if st.orders.any (fun o => o.orderNumber == num) then
      genOrderNumberRetry st year month fuel
    else .ok num

/-! ## Checkout (POST /api/orders) -/

/-- `/^\d{6}$/` on the pincode. -/
def pincodeOk (s : String) : Bool :=
  s.data.length == 6 && s.data.all Char.isDigit

/-- `/^(\+91)?[6-9]\d{9}$/` on the whitespace-cleaned phone. -/
def phoneOk (s : String) : Bool :=
  let t := cleanPhone s
  let core := if strStartsWith t "+91" then String.mk (t.data.drop 3) else t
  match core.data with
  | c :: rest => '6' ≤ c && c ≤ '9' && rest.length == 9 && rest.all Char.isDigit
  | [] => false

/-- The required-field / pincode / phone validation block of `POST /api/orders`
(`!shippingAddress[field]` is falsity of the string, i.e. emptiness). -/
def validateCheckout (a : Address) : Option ApiError :=
  if a.fullName == "" || a.phone == "" || a.addressLine1 == "" ||
      a.city == "" || a.state == "" || a.pincode == "" then
    some .validationFailed
  else if !pincodeOk a.pincode then some .validationFailed
  else if !phoneOk a.phone then some .validationFailed
  else none

/-- The sanitize block: `trim()` on the free-text address fields. -/
def sanitizeAddress (a : Address) : Address :=
  { a with
    fullName := jsTrim a.fullName
    addressLine1 := jsTrim a.addressLine1
    city := jsTrim a.city
    state := jsTrim a.state
    addressLine2 := a.addressLine2.map jsTrim }

/-- The per-item availability loop: `product.checkStock(color, size, qty)`
for every cart item (a missing populated product would throw → 500). -/
def checkItems (st : State) : List CartItem → Resp Unit
  | [] => .ok ()
  | item :: rest =>
    match findProduct st item.product with
    | none => .err .serverError
    | some p =>
      if p.checkStock item.color item.size item.quantity then checkItems st rest
      else .err .insufficientStock

/-- The `orderItems = cart.items.map(...)` block: snapshot name, image
(`images[0] || '/placeholder.svg'`), price and quantity; sku from the
matching inventory entry with the slug-based fallback
(`` `${slug}-${color}-${size}`.toUpperCase().replace(/\s+/g, '-') ``,
also taken when the stored sku is the empty string, as `'' ||` falls
through). -/
def buildItems (st : State) : List CartItem → Resp (List OrderItem)
  | [] => .ok []
  | item :: rest =>
    match findProduct st item.product with
    | none => .err .serverError
    | some p =>
      let fallbackSku :=
        jsReplaceWsDash (jsUpper (p.slug ++ "-" ++ item.color ++ "-" ++ item.size))
      let sku :=
        match p.inventory.find? (fun inv => inv.color == item.color && inv.size == item.size) with
        | some inv => if inv.sku == "" then fallbackSku else inv.sku
        | none => fallbackSku
      let image :=
        match p.images with
        | [] => "/placeholder.svg"
        | img :: _ => if img == "" then "/placeholder.svg" else img
      match buildItems st rest with
      | .err e => .err e
      | .ok tl =>
        .ok ({ product := p.id, productName := p.name, productImage := image,
               color := item.color, size := item.size, quantity := item.quantity,
               price := item.price, sku := sku } :: tl)

/-- `POST /api/orders`: validate the shipping address, load the cart (empty →
400), re-check stock, compute the pricing breakdown (`tax` stores the rate,
`taxAmount` the rounded amount), generate the order number, persist the
order with payment `{ method: 'cod', status: 'pending' }` and status
`pending`, then clear the cart.  Stock is not touched. -/
def createOrder (st : State) (userId : Nat) (shippingAddress : Address)
    (billingAddress : Option Address) (useSameAddress : Bool)
    (year month : String) (newId : Nat) : Resp Order × State :=
  match validateCheckout shippingAddress with
  | some e => (.err e, st)
  | none =>
    let addr := sanitizeAddress shippingAddress
    match findCart st userId with
    | none => (.err .emptyCart, st)
    | some cart =>
      if cart.items.isEmpty then (.err .emptyCart, st)
      else
        match checkItems st cart.items with
        | .err e => (.err e, st)
        | .ok _ =>
          let subtotal := cart.subtotal
          let shippingCost := if freeShippingThreshold ≤ subtotal then 0 else 100
          let taxAmount := roundDiv100 (subtotal * taxRate)
          let totalAmount := subtotal + shippingCost + taxAmount
          match genOrderNumberRetry st year month 5 with
          | .err e => (.err e, st)
          | .ok num =>
            match buildItems st cart.items with
            | .err e => (.err e, st)
            | .ok orderItems =>
              match (if useSameAddress then some addr else billingAddress) with
              | none => (.err .validationFailed, st)
              | some bill =>
                let order : Order :=
                  { id := newId, orderNumber := num, user := userId,
                    items := orderItems, shippingAddress := addr,
                    billingAddress := bill, subtotal := subtotal,
                    shippingCost := shippingCost, tax := taxRate,
                    taxAmount := taxAmount, discount := 0,
                    total := totalAmount, totalAmount := totalAmount,
                    payment := { method := .cod, status := .pending,
                                 razorpayOrderId := none,
                                 razorpayPaymentId := none, paidAt := none },
                    orderStatus := .pending, paymentStatus := .pending,
                    deliveredAt := none }
                let st1 := insertOrder st order
                let st2 := saveCart st1 { cart with items := [] }
                (.ok order, st2)

/-! ## Payment bridge (src/routes/payment.ts) -/

/-- `POST /api/payment/verify`: parameter presence, order lookup, ownership,
HMAC-SHA256 signature over `orderId|paymentId` (the hash itself is an
uninterpreted parameter), then — with no guard on the current payment
status — mark the payment completed, confirm the order, debit every line
item and dispatch the confirmation email. -/
def verifyPayment (hmac : String → String → String) (secret : String)
    (st : State) (userId orderId : Nat)
    (rzpOrderId rzpPaymentId signature : String) (now : Nat) :
    Resp Unit × State :=
  if rzpOrderId == "" || rzpPaymentId == "" || signature == "" then
    (.err .missingParams, st)
  else
    match findOrder st orderId with
    | none => (.err .notFound, st)
    | some o =>
      if o.user != userId then (.err .accessDenied, st)
      else
        let generated := hmac secret (rzpOrderId ++ "|" ++ rzpPaymentId)
        if generated != signature then (.err .invalidSignature, st)
        else
          let p1 :=
            { o.payment with
                razorpayPaymentId := some rzpPaymentId,
                status := PaymentStatus.completed,
                paidAt := some now }
          let o1 :=
            { o with
              payment := p1,
              paymentStatus := PaymentStatus.completed,
              orderStatus := OrderStatus.confirmed }
          let st1 := saveOrder st o1
          let r := debitItems st1 o1.items
          if r.1 then (.ok (), sendEmailLog r.2 o1.orderNumber)
          else (.err .serverError, r.2)

/-- Webhook helper `handlePaymentCaptured`: looks up the order from the
event notes and unconditionally rewrites the payment sub-record and the
statuses.  It debits no stock and sends no email. -/
def handlePaymentCaptured (st : State) (noteOrderId : Option Nat)
    (paymentId : String) (now : Nat) : State :=
  match noteOrderId with
  | none => st
  | some oid =>
    match findOrder st oid with
    | none => st
    | some o =>
      let p1 :=
        { o.payment with
            razorpayPaymentId := some paymentId,
            status := PaymentStatus.completed,
            paidAt := some now }
      saveOrder st
        { o with
          payment := p1,
          paymentStatus := PaymentStatus.completed,
          orderStatus := OrderStatus.confirmed }

/-- `POST /api/payment/cod`: ownership, `orderStatus === 'pending'` guard,
replace the payment sub-record with `{ method: 'cod', status: 'pending' }`,
confirm the order, debit every line item, dispatch the confirmation
email. -/
def codConfirm (st : State) (userId orderId : Nat) : Resp Unit × State :=
  match findOrder st orderId with
  | none => (.err .notFound, st)
  | some o =>
    if o.user != userId then (.err .accessDenied, st)
    else if o.orderStatus != OrderStatus.pending then (.err .alreadyProcessed, st)
    else
      let o1 :=
        { o with
          payment := { method := PaymentMethod.cod, status := PaymentStatus.pending,
                       razorpayOrderId := none, razorpayPaymentId := none,
                       paidAt := none },
          paymentStatus := PaymentStatus.pending,
          orderStatus := OrderStatus.confirmed }
      let st1 := saveOrder st o1
      let r := debitItems st1 o1.items
      if r.1 then (.ok (), sendEmailLog r.2 o1.orderNumber)
      else (.err .serverError, r.2)

/-- `POST /api/orders/:id/cancel`: ownership, reject when the status is
`shipped`, `out-for-delivery` or `delivered`, reject when already
`cancelled`; otherwise set `cancelled`, save, and restore stock for every
line item. -/
def cancelOrder (st : State) (userId orderId : Nat) : Resp Unit × State :=
  match findOrder st orderId with
  | none => (.err .notFound, st)
  | some o =>
    if o.user != userId then (.err .accessDenied, st)
    else if o.orderStatus == OrderStatus.shipped ||
        o.orderStatus == OrderStatus.outForDelivery ||
        o.orderStatus == OrderStatus.delivered then
      (.err .cannotCancel, st)
    else if o.orderStatus == OrderStatus.cancelled then (.err .alreadyCancelled, st)
    else
      let st1 := saveOrder st { o with orderStatus := OrderStatus.cancelled }
      let r := restoreItems st1 o.items
      if r.1 then (.ok (), r.2) else (.err .serverError, r.2)

/-! ## Derived observations used by the theorems -/

/-- Stock of the first inventory entry matching `(color, size)` on the first
product with the given id, read from the store. -/
def stockOf (st : State) (pid : Nat) (color size : String) : Option Int :=
  (findProduct st pid).bind fun p =>
    (p.inventory.find? (fun inv => inv.color == color && inv.size == size)).map
      (fun inv => inv.stock)

/-- Every inventory entry of every stored product has non-negative stock. -/
def nonnegStockB (st : State) : Bool :=
  st.products.all Product.validStock

/-- Sum of `price * quantity` over persisted order items. -/
def itemsTotal (items : List OrderItem) : Nat :=
  items.foldl (fun total item => total + item.price * item.quantity) 0

/-- A response succeeded and its payload satisfies the Boolean test. -/
def respHolds {α : Type} (r : Resp α) (f : α → Bool) : Bool :=
  match r with
  | .ok v => f v
  | .err _ => false

/-- The four decimal digit characters of `n`, most significant first (used
to state the format of generated order numbers). -/
def fourDigitChars (n : Nat) : List Char :=
  [Nat.digitChar (n / 1000 % 10), Nat.digitChar (n / 100 % 10),
   Nat.digitChar (n / 10 % 10), Nat.digitChar (n % 10)]

/-- Total quantity the cancel restock loop credits to the variant
`(pid, color, size)`: the summed quantities of the line items naming that
variant whose product and inventory entry exist in the store. -/
def creditSum (st : State) (items : List OrderItem) (pid : Nat) (color size : String) : Nat :=
  ((items.filter (fun it =>
      it.product == pid && it.color == color && it.size == size &&
      (stockOf st it.product it.color it.size).isSome)).map
    (fun it => it.quantity)).sum

/-! ## Concrete fixtures used by counterexamples and witnesses -/

def demoAddr : Address :=
  { fullName := "Asha Rao", phone := "9876543210", addressLine1 := "12 MG Road",
    addressLine2 := none, city := "Bengaluru", state := "Karnataka",
    pincode := "560001" }

def demoItem : OrderItem :=
  { product := 1, productName := "Tee", productImage := "img", color := "Red",
    size := "M", quantity := 2, price := 899, sku := "SKU1" }

def demoPayment : Payment :=
  { method := PaymentMethod.razorpay, status := PaymentStatus.pending,
    razorpayOrderId := some "rzo", razorpayPaymentId := none, paidAt := none }

/-- A paid-for-gateway order awaiting verification, one line item of two
units at 899. -/
def demoOrder : Order :=
  { id := 1, orderNumber := "MDD25060001", user := 1, items := [demoItem],
    shippingAddress := demoAddr, billingAddress := demoAddr, subtotal := 1798,
    shippingCost := 100, tax := 18, taxAmount := 324, discount := 0,
    total := 2222, totalAmount := 2222, payment := demoPayment,
    orderStatus := OrderStatus.pending, paymentStatus := PaymentStatus.pending,
    deliveredAt := none }

def demoProduct : Product :=
  { id := 1, name := "Tee", slug := "tee", price := 899, images := ["img"],
    inventory := [{ color := "Red", size := "M", stock := 10, sku := "SKU1" }] }

def demoState : State :=
  { products := [demoProduct], orders := [demoOrder], carts := [], emails := [] }

/-- Uninterpreted stand-in for HMAC-SHA256 under which "validsig" is the
correct signature for every message. -/
def demoHmac : String → String → String := fun _ _ => "validsig"

/-- Cart holding one item priced 899 with quantity 2 (spec scenario A). -/
def demoCart : Cart :=
  { user := 1,
    items := [{ product := 1, color := "Red", size := "M", quantity := 2, price := 899 }] }

/-- Pre-checkout store for scenario A. -/
def checkoutState : State :=
  { products := [demoProduct], orders := [], carts := [demoCart], emails := [] }

def scenarioBProduct : Product :=
  { id := 2, name := "Hoodie", slug := "hoodie", price := 1250, images := ["img2"],
    inventory := [{ color := "Blue", size := "L", stock := 5, sku := "SKU2" }] }

/-- Cart with subtotal 2500 (spec scenario B). -/
def scenarioBCart : Cart :=
  { user := 1,
    items := [{ product := 2, color := "Blue", size := "L", quantity := 2, price := 1250 }] }

def scenarioBState : State :=
  { products := [scenarioBProduct], orders := [], carts := [scenarioBCart], emails := [] }

/-- Store holding an order in status `refunded`. -/
def refundedState : State :=
  { products := [demoProduct],
    orders := [{ demoOrder with orderStatus := OrderStatus.refunded }],
    carts := [], emails := [] }

/-- Store holding an order in status `delivered`. -/
def deliveredState : State :=
  { products := [demoProduct],
    orders := [{ demoOrder with orderStatus := OrderStatus.delivered }],
    carts := [], emails := [] }

/-- Store in which user 1 has an empty cart. -/
def emptyCartState : State :=
  { products := [demoProduct], orders := [],
    carts := [{ user := 1, items := [] }], emails := [] }

/-- The order that `createOrder` persists for scenario A from
`checkoutState` (used to instantiate the general checkout theorems). -/
def scenarioAOrder : Order :=
  { id := 1, orderNumber := "MDD25060001", user := 1, items := [demoItem],
    shippingAddress := demoAddr, billingAddress := demoAddr, subtotal := 1798,
    shippingCost := 100, tax := 18, taxAmount := 324, discount := 0,
    total := 2222, totalAmount := 2222,
    payment := { method := PaymentMethod.cod, status := PaymentStatus.pending,
                 razorpayOrderId := none, razorpayPaymentId := none,
                 paidAt := none },
    orderStatus := OrderStatus.pending, paymentStatus := PaymentStatus.pending,
    deliveredAt := none }

/-- First direct verification of the gateway capture for `demoOrder`. -/
def verifyOnce : Resp Unit × State :=
  verifyPayment demoHmac "sec" demoState 1 1 "rzo" "pay1" "validsig" 7

/-- The same capture verified a second time, after the first completed. -/
def verifyTwice : Resp Unit × State :=
  verifyPayment demoHmac "sec" verifyOnce.2 1 1 "rzo" "pay1" "validsig" 8

/-- The same capture event delivered twice through the webhook handler. -/
def captureTwice : State :=
  handlePaymentCaptured (handlePaymentCaptured demoState (some 1) "pay1" 7) (some 1) "pay1" 8

end MDD

namespace MDD

/-! ## Claim theorems -/

/-- C1: the claim demands that a second processing of the same gateway
capture (webhook, direct verify, or one of each) is a no-op beyond one
inventory debit and one confirmation email.  Evaluating the handlers on a
concrete store refutes this and exhibits the bug: after a first successful
verify has already set the payment status to `completed`, a second verify
of the same capture succeeds again, debits the inventory a second time
(stock 10 → 6 instead of 8) and dispatches a second confirmation email,
while the webhook capture handler — which has no completed-guard either —
performs zero debits and zero email dispatches however often it runs. -/
theorem duplicate_capture_reapplies_effects :
    (findOrder verifyOnce.2 1).map Order.paymentStatus = some PaymentStatus.completed ∧
    isOk verifyTwice.1 = true ∧
    stockOf verifyTwice.2 1 "Red" "M" = some 6 ∧
    verifyTwice.2.emails.length = 2 ∧
    stockOf captureTwice 1 "Red" "M" = some 10 ∧
    captureTwice.emails.length = 0 := by decide

/-- C2 counterexample: for the order persisted by a concrete successful
checkout (scenario A), `total == subtotal + shippingCost + tax - discount`
is false, because the stored `tax` field holds the tax rate 18, not the tax
amount: the order has total 2222 but subtotal + shippingCost + tax -
discount = 1798 + 100 + 18 - 0 = 1916. -/
theorem total_tax_field_identity_fails :
    respHolds (createOrder checkoutState 1 demoAddr none true "25" "06" 1).1
      (fun o =>
        decide (o.total ≠ o.subtotal + o.shippingCost + o.tax - o.discount) &&
        o.total == 2222 &&
        o.subtotal + o.shippingCost + o.tax - o.discount == 1916) = true := by
  decide

/-- C6 counterexample: an order in status `refunded` — which is neither in
the claimed permitted set nor among shipped / out-for-delivery /
delivered / cancelled — CAN be cancelled: the handler succeeds, moves the
order to `cancelled` and restores stock (10 → 12). -/
theorem cancel_refunded_order_succeeds :
    isOk (cancelOrder refundedState 1 1).1 = true ∧
    (findOrder (cancelOrder refundedState 1 1).2 1).map Order.orderStatus =
      some OrderStatus.cancelled ∧
    stockOf (cancelOrder refundedState 1 1).2 1 "Red" "M" = some 12 := by decide

/-- C7 counterexample: when the bucket already holds sequence 9999, the
generated number is `MDD2506` ++ `"10000"` — `padStart(4, '0')` never
truncates — so the result has 12 characters and violates the claimed
`MDD<YY><MM><NNNN>` 4-digit format (11 characters). -/
theorem order_number_overflow_breaks_format :
    generateOrderNumber ["MDD25069999"] "25" "06" = "MDD250610000" ∧
    (generateOrderNumber ["MDD25069999"] "25" "06").data.length ≠ 11 := by decide

end MDD

namespace MDD

/-! ## Checkout structure lemmas -/

theorem foldl_add_map {α : Type} (g : α → Nat) :
    ∀ (l : List α) (a : Nat), l.foldl (fun t x => t + g x) a = a + (l.map g).sum
  | [], a => by simp
  | x :: xs, a => by
    simp [List.foldl_cons, foldl_add_map g xs]
    ring

/-- `buildItems` copies each cart item's price and quantity unchanged. -/
theorem buildItems_map_price_qty (st : State) :
    ∀ (items : List CartItem) (l : List OrderItem), buildItems st items = .ok l →
      l.map (fun i => i.price * i.quantity) = items.map (fun c => c.price * c.quantity) := by
  intro items
  induction items with
  | nil => intro l h; simp [buildItems] at h; subst h; simp
  | cons c cs ih =>
    intro l h
    simp only [buildItems] at h
    split at h
    · exact absurd h (by simp)
    · split at h
      · exact absurd h (by simp)
      · rename_i tl htl
        simp only [Resp.ok.injEq] at h
        subst h
        simp [ih tl htl]

theorem itemsTotal_eq_subtotal (st : State) (c : Cart) (l : List OrderItem)
    (h : buildItems st c.items = .ok l) : itemsTotal l = c.subtotal := by
  unfold itemsTotal Cart.subtotal
  rw [foldl_add_map, foldl_add_map, buildItems_map_price_qty st c.items l h]

/-- Anatomy of a successful checkout: the pricing fields of the persisted
order in terms of the cart it consumed. -/
theorem createOrder_ok_fields (st : State) (uid : Nat) (a : Address) (b : Option Address)
    (same : Bool) (y m : String) (nid : Nat) (o : Order)
    (h : (createOrder st uid a b same y m nid).1 = Resp.ok o) :
    ∃ cart, findCart st uid = some cart ∧
      buildItems st cart.items = Resp.ok o.items ∧
      o.subtotal = cart.subtotal ∧
      o.shippingCost = (if freeShippingThreshold ≤ o.subtotal then 0 else 100) ∧
      o.tax = taxRate ∧
      o.taxAmount = roundDiv100 (o.subtotal * taxRate) ∧
      o.discount = 0 ∧
      o.total = o.subtotal + o.shippingCost + o.taxAmount ∧
      o.totalAmount = o.total := by
  unfold createOrder at h
  split at h
  · exact absurd h (by simp)
  · split at h
    · exact absurd h (by simp)
    · rename_i cart hcart
      split at h
      · exact absurd h (by simp)
      · split at h
        · exact absurd h (by simp)
        · split at h
          · exact absurd h (by simp)
          · rename_i num hnum
            split at h
            · exact absurd h (by simp)
            · rename_i items hitems
              split at h
              · dsimp only at h
                simp only [Resp.ok.injEq] at h
                subst h
                exact ⟨cart, hcart, by simpa using hitems, rfl, rfl, rfl, rfl, rfl, rfl, rfl⟩
              · split at h
                · exact absurd h (by simp)
                · rename_i bill hbill
                  dsimp only at h
                  simp only [Resp.ok.injEq] at h
                  subst h
                  exact ⟨cart, hcart, by simpa using hitems, rfl, rfl, rfl, rfl, rfl, rfl, rfl⟩

/-- A checkout, successful or not, never writes to the products
collection. -/
theorem createOrder_products_eq (st : State) (uid : Nat) (a : Address) (b : Option Address)
    (same : Bool) (y m : String) (nid : Nat) :
    ((createOrder st uid a b same y m nid).2).products = st.products := by
  unfold createOrder
  repeat' split
  all_goals simp [insertOrder, saveCart]

/-- C2 (amended): for every order persisted by a successful checkout,
`total = subtotal + shippingCost + taxAmount - discount` — the stored
`tax` field holds the tax *rate*, the monetary amount lives in
`taxAmount` — and `total` equals the sum of line-item price × quantity
plus the shipping and tax fees. -/
theorem order_pricing_identity (st : State) (uid : Nat) (a : Address) (b : Option Address)
    (same : Bool) (y m : String) (nid : Nat) (o : Order)
    (h : (createOrder st uid a b same y m nid).1 = Resp.ok o) :
    o.total = o.subtotal + o.shippingCost + o.taxAmount - o.discount ∧
    o.total = itemsTotal o.items + o.shippingCost + o.taxAmount := by
  obtain ⟨cart, hcart, hbuild, hsub, hship, htax, htaxa, hdisc, htot, htota⟩ :=
    createOrder_ok_fields st uid a b same y m nid o h
  constructor
  · rw [htot, hdisc]
    omega
  · rw [htot, hsub, itemsTotal_eq_subtotal st cart o.items hbuild]

theorem order_pricing_identity_witness :
    ((createOrder checkoutState 1 demoAddr none true "25" "06" 1).1 = Resp.ok scenarioAOrder) ∧
    (scenarioAOrder.total =
        scenarioAOrder.subtotal + scenarioAOrder.shippingCost +
          scenarioAOrder.taxAmount - scenarioAOrder.discount ∧
      scenarioAOrder.total =
        itemsTotal scenarioAOrder.items + scenarioAOrder.shippingCost +
          scenarioAOrder.taxAmount) :=
  ⟨by decide,
   order_pricing_identity checkoutState 1 demoAddr none true "25" "06" 1 scenarioAOrder (by decide)⟩

/-- C5: for every successful checkout the shipping cost is 0 when the
subtotal reaches the free-shipping threshold 2000 and 100 otherwise, and
the tax amount is `Math.round(subtotal * 18 / 100)`; concretely, scenario
A (subtotal 1798) prices shipping 100, tax 324, total 2222, and scenario B
(subtotal 2500) prices shipping 0, tax 450, total 2950. -/
theorem shipping_and_tax_rule :
    (∀ (st : State) (uid : Nat) (a : Address) (b : Option Address) (same : Bool)
        (y m : String) (nid : Nat) (o : Order),
      (createOrder st uid a b same y m nid).1 = Resp.ok o →
        o.shippingCost = (if 2000 ≤ o.subtotal then 0 else 100) ∧
        o.taxAmount = roundDiv100 (o.subtotal * 18)) ∧
    respHolds (createOrder checkoutState 1 demoAddr none true "25" "06" 1).1
      (fun o => o.subtotal == 1798 && o.shippingCost == 100 &&
                o.taxAmount == 324 && o.total == 2222) = true ∧
    respHolds (createOrder scenarioBState 1 demoAddr none true "25" "06" 1).1
      (fun o => o.subtotal == 2500 && o.shippingCost == 0 &&
                o.taxAmount == 450 && o.total == 2950) = true := by
  refine ⟨?_, by decide, by decide⟩
  intro st uid a b same y m nid o h
  obtain ⟨cart, hcart, hbuild, hsub, hship, htax, htaxa, hdisc, htot, htota⟩ :=
    createOrder_ok_fields st uid a b same y m nid o h
  exact ⟨by simpa [freeShippingThreshold] using hship,
         by simpa [taxRate] using htaxa⟩

theorem shipping_and_tax_rule_witness :
    ((createOrder checkoutState 1 demoAddr none true "25" "06" 1).1 = Resp.ok scenarioAOrder) ∧
    scenarioAOrder.shippingCost = (if 2000 ≤ scenarioAOrder.subtotal then 0 else 100) ∧
    scenarioAOrder.taxAmount = roundDiv100 (scenarioAOrder.subtotal * 18) :=
  ⟨by decide,
   shipping_and_tax_rule.1 checkoutState 1 demoAddr none true "25" "06" 1 scenarioAOrder (by decide)⟩

/-- C8: a checkout whose (otherwise valid) request finds no cart for the
user, or a cart without line items, fails with the empty-cart error and
leaves the entire store — orders and carts included — untouched. -/
theorem empty_cart_checkout (st : State) (uid : Nat) (a : Address) (b : Option Address)
    (same : Bool) (y m : String) (nid : Nat)
    (hv : validateCheckout a = none)
    (hc : findCart st uid = none ∨ ∃ cart, findCart st uid = some cart ∧ cart.items = []) :
    (createOrder st uid a b same y m nid).1 = Resp.err ApiError.emptyCart ∧
    (createOrder st uid a b same y m nid).2 = st := by
  unfold createOrder
  rw [hv]
  rcases hc with hc | ⟨cart, hc, hitems⟩
  · rw [hc]
    exact ⟨rfl, rfl⟩
  · rw [hc]
    simp [hitems]

theorem empty_cart_checkout_witness :
    (createOrder emptyCartState 1 demoAddr none true "25" "06" 1).1 = Resp.err ApiError.emptyCart ∧
    (createOrder emptyCartState 1 demoAddr none true "25" "06" 1).2 = emptyCartState :=
  empty_cart_checkout emptyCartState 1 demoAddr none true "25" "06" 1 (by decide)
    (Or.inr ⟨{ user := 1, items := [] }, by decide, rfl⟩)

/-- C9: a successful checkout leaves every product document — hence every
inventory stock — exactly as it was: order creation never debits stock. -/
theorem checkout_preserves_inventory (st : State) (uid : Nat) (a : Address)
    (b : Option Address) (same : Bool) (y m : String) (nid : Nat) (o : Order)
    (h : (createOrder st uid a b same y m nid).1 = Resp.ok o) :
    ((createOrder st uid a b same y m nid).2).products = st.products :=
  createOrder_products_eq st uid a b same y m nid

theorem checkout_preserves_inventory_witness :
    ((createOrder checkoutState 1 demoAddr none true "25" "06" 1).2).products =
      checkoutState.products :=
  checkout_preserves_inventory checkoutState 1 demoAddr none true "25" "06" 1
    scenarioAOrder (by decide)

end MDD

namespace MDD

theorem adjustStockFirst_valid (d : Int) (hd : 0 ≤ d) :
    ∀ (l : List InventoryItem) (c s : String),
      l.all (fun inv => decide (0 ≤ inv.stock)) = true →
      (adjustStockFirst d l c s).all (fun inv => decide (0 ≤ inv.stock)) = true := by
  intro l
  induction l with
  | nil => intro c s h; exact h
  | cons inv rest ih =>
    intro c s h
    simp only [List.all_cons, Bool.and_eq_true, decide_eq_true_eq] at h
    unfold adjustStockFirst
    split
    · simp only [List.all_cons, Bool.and_eq_true, decide_eq_true_eq]
      refine ⟨?_, by simpa using h.2⟩
      omega
    · simp only [List.all_cons, Bool.and_eq_true, decide_eq_true_eq]
      exact ⟨h.1, ih c s (by simpa using h.2)⟩

theorem saveProduct_nonneg (st : State) (p : Product) (hp : p.validStock = true)
    (h : nonnegStockB st = true) : nonnegStockB (saveProduct st p) = true := by
  unfold nonnegStockB saveProduct at *
  simp only [List.all_map, List.all_eq_true, Function.comp] at *
  intro q hq
  by_cases hc : (q.id == p.id) = true
  · simpa [hc] using hp
  · simp only [Bool.not_eq_true] at hc
    simpa [hc] using h q hq

theorem updateStockOp_nonneg (st : State) (p : Product) (c s : String) (q : Nat)
    (h : nonnegStockB st = true) : nonnegStockB (updateStockOp st p c s q).2 = true := by
  unfold updateStockOp
  split
  · exact h
  · dsimp only
    split
    · rename_i hv
      exact saveProduct_nonneg st _ hv h
    · exact h

theorem debitItems_nonneg : ∀ (items : List OrderItem) (st : State),
    nonnegStockB st = true → nonnegStockB (debitItems st items).2 = true := by
  intro items
  induction items with
  | nil => intro st h; exact h
  | cons it rest ih =>
    intro st h
    unfold debitItems
    split
    · exact ih st h
    · rename_i p hp
      by_cases hr : (updateStockOp st p it.color it.size it.quantity).1 = true
      · simp only [hr, if_true]
        exact ih _ (updateStockOp_nonneg st p it.color it.size it.quantity h)
      · simp only [Bool.not_eq_true] at hr
        simp only [hr, Bool.false_eq_true, if_false]
        exact updateStockOp_nonneg st p it.color it.size it.quantity h

theorem restoreItems_ok_nonneg : ∀ (items : List OrderItem) (st : State),
    nonnegStockB st = true →
    (restoreItems st items).1 = true ∧ nonnegStockB (restoreItems st items).2 = true := by
  intro items
  induction items with
  | nil => intro st h; exact ⟨rfl, h⟩
  | cons it rest ih =>
    intro st h
    unfold restoreItems
    split
    · exact ih st h
    · rename_i p hp
      split
    
      · exact ih st h
      · have hmem : p ∈ st.products := List.mem_of_find?_eq_some hp
        have hpv : p.validStock = true := by
          unfold nonnegStockB at h
          exact List.all_eq_true.mp h p hmem
        have hupd : Product.validStock
            { p with inventory := adjustStockFirst (it.quantity : Int) p.inventory it.color it.size } = true := by
          unfold Product.validStock at hpv ⊢
          exact adjustStockFirst_valid _ (Int.natCast_nonneg _) _ _ _ hpv
        simp only [hupd, if_true]
        exact ih _ (saveProduct_nonneg st _ hupd h)

end MDD

namespace MDD

theorem nonnegStockB_saveOrder (st : State) (o : Order) :
    nonnegStockB (saveOrder st o) = nonnegStockB st := rfl

theorem nonnegStockB_sendEmail (st : State) (n : String) :
    nonnegStockB (sendEmailLog st n) = nonnegStockB st := rfl

theorem invalid_signature_rejected (hmac : String → String → String) (secret : String)
    (st : State) (uid oid : Nat) (roid rpid sig : String) (now : Nat)
    (hsig : sig ≠ hmac secret (roid ++ "|" ++ rpid)) :
    isOk (verifyPayment hmac secret st uid oid roid rpid sig now).1 = false ∧
    (verifyPayment hmac secret st uid oid roid rpid sig now).2 = st := by
  unfold verifyPayment
  split
  · exact ⟨rfl, rfl⟩
  · split
    · exact ⟨rfl, rfl⟩
    · split
      · exact ⟨rfl, rfl⟩
      · dsimp only
        split
        · exact ⟨rfl, rfl⟩
        · rename_i hne
          exfalso
          apply hsig
          simp only [Bool.not_eq_true, bne_eq_false_iff_eq] at hne
          exact hne.symm

theorem stock_never_negative (st : State) (h : nonnegStockB st = true)
    (uid oid nid now : Nat) (a : Address) (b : Option Address) (same : Bool)
    (y mo : String) (hm : String → String → String)
    (secret roid rpid sig : String) (noid : Option Nat) (payid : String) :
    nonnegStockB (createOrder st uid a b same y mo nid).2 = true ∧
    nonnegStockB (verifyPayment hm secret st uid oid roid rpid sig now).2 = true ∧
    nonnegStockB (codConfirm st uid oid).2 = true ∧
    nonnegStockB (handlePaymentCaptured st noid payid now) = true ∧
    nonnegStockB (cancelOrder st uid oid).2 = true := by
  refine ⟨?_, ?_, ?_, ?_, ?_⟩
  · unfold nonnegStockB
    rw [createOrder_products_eq]
    exact h
  · unfold verifyPayment
    split
    · exact h
    · split
      · exact h
      · split
        · exact h
        · dsimp only
          split
          · exact h
          · split
            · exact debitItems_nonneg _ _ h
            · exact debitItems_nonneg _ _ h
  · unfold codConfirm
    split
    · exact h
    · split
      · exact h
      · split
        · exact h
        · dsimp only
          split
          · exact debitItems_nonneg _ _ h
          · exact debitItems_nonneg _ _ h
  · unfold handlePaymentCaptured
    split
    · exact h
    · split
      · exact h
      · exact h
  · unfold cancelOrder
    split
    · exact h
    · rename_i o ho
      split
      · exact h
      · split
        · exact h
        · split
          · exact h
          · dsimp only
            split
            · exact (restoreItems_ok_nonneg o.items
                (saveOrder st { o with orderStatus := OrderStatus.cancelled }) h).2
            · exact (restoreItems_ok_nonneg o.items
                (saveOrder st { o with orderStatus := OrderStatus.cancelled }) h).2

theorem cancel_guard_exact (st : State) (uid oid : Nat) (o : Order)
    (hfind : findOrder st oid = some o) (hown : o.user = uid)
    (hnn : nonnegStockB st = true) :
    ((o.orderStatus = OrderStatus.shipped ∨ o.orderStatus = OrderStatus.outForDelivery ∨
        o.orderStatus = OrderStatus.delivered ∨ o.orderStatus = OrderStatus.cancelled) →
      isOk (cancelOrder st uid oid).1 = false ∧ (cancelOrder st uid oid).2 = st) ∧
    (o.orderStatus ≠ OrderStatus.shipped → o.orderStatus ≠ OrderStatus.outForDelivery →
      o.orderStatus ≠ OrderStatus.delivered → o.orderStatus ≠ OrderStatus.cancelled →
      isOk (cancelOrder st uid oid).1 = true) := by
  have hbo : (o.user != uid) = false := by simp [hown]
  constructor
  · intro hdisj
    unfold cancelOrder
    rw [hfind]
    rcases hdisj with hs | hs | hs | hs <;> simp [hbo, hs, isOk]
  · intro h1 h2 h3 h4
    unfold cancelOrder
    rw [hfind]
    have c1 : (o.orderStatus == OrderStatus.shipped) = false := by
      simp [h1]
    have c2 : (o.orderStatus == OrderStatus.outForDelivery) = false := by
      simp [h2]
    have c3 : (o.orderStatus == OrderStatus.delivered) = false := by
      simp [h3]
    have c4 : (o.orderStatus == OrderStatus.cancelled) = false := by
      simp [h4]
    have hr := (restoreItems_ok_nonneg o.items
        (saveOrder st { o with orderStatus := OrderStatus.cancelled }) hnn).1
    simp [hbo, c1, c2, c3, c4, isOk, hr]

end MDD

namespace MDD

theorem invalid_signature_rejected_witness :
    isOk (verifyPayment demoHmac "sec" demoState 1 1 "rzo" "pay1" "WRONG" 7).1 = false ∧
    (verifyPayment demoHmac "sec" demoState 1 1 "rzo" "pay1" "WRONG" 7).2 = demoState :=
  invalid_signature_rejected demoHmac "sec" demoState 1 1 "rzo" "pay1" "WRONG" 7 (by decide)

theorem stock_never_negative_witness :
    nonnegStockB demoState = true ∧
    (nonnegStockB (createOrder demoState 1 demoAddr none true "25" "06" 9).2 = true ∧
      nonnegStockB (verifyPayment demoHmac "sec" demoState 1 1 "rzo" "pay1" "validsig" 7).2 = true ∧
      nonnegStockB (codConfirm demoState 1 1).2 = true ∧
      nonnegStockB (handlePaymentCaptured demoState (some 1) "pay1" 7) = true ∧
      nonnegStockB (cancelOrder demoState 1 1).2 = true) :=
  ⟨by decide,
   stock_never_negative demoState (by decide) 1 1 9 7 demoAddr none true "25" "06"
     demoHmac "sec" "rzo" "pay1" "validsig" (some 1) "pay1"⟩

theorem cancel_guard_exact_witness :
    isOk (cancelOrder deliveredState 1 1).1 = false ∧
    (cancelOrder deliveredState 1 1).2 = deliveredState :=
  (cancel_guard_exact deliveredState 1 1
      { demoOrder with orderStatus := OrderStatus.delivered }
      (by decide) rfl (by decide)).1
    (Or.inr (Or.inr (Or.inl rfl)))

end MDD

namespace MDD

theorem find?_ext {α : Type} (p q : α → Bool) (h : ∀ a, p a = q a) :
    ∀ l : List α, l.find? p = l.find? q
  | [] => rfl
  | a :: l => by
    rw [List.find?_cons, List.find?_cons, h a, find?_ext p q h l]

theorem find?_save_list (updated : Product) (l : List Product) (pid : Nat) :
    (l.map (fun q => if q.id == updated.id then updated else q)).find?
        (fun q => q.id == pid) =
      (l.find? (fun q => q.id == pid)).map
        (fun q => if q.id == updated.id then updated else q) := by
  rw [List.find?_map]
  have hext : ∀ a : Product,
      ((fun q => q.id == pid) ∘ fun q => if q.id == updated.id then updated else q) a =
        (fun q : Product => q.id == pid) a := by
    intro a
    simp only [Function.comp]
    by_cases hA : (a.id == updated.id) = true
    · have hA' : a.id = updated.id := by simpa using hA
      simp [hA, hA']
    · simp [hA]
  rw [find?_ext _ _ hext l]

theorem find?_adjustStockFirst (d : Int) :
    ∀ (l : List InventoryItem) (c0 s0 c s : String),
      (adjustStockFirst d l c0 s0).find? (fun inv => inv.color == c && inv.size == s) =
        (l.find? (fun inv => inv.color == c && inv.size == s)).map
          (fun e => if c == c0 && s == s0 then { e with stock := e.stock + d } else e) := by
  intro l
  induction l with
  | nil => intro c0 s0 c s; rfl
  | cons inv rest ih =>
    intro c0 s0 c s
    unfold adjustStockFirst
    cases h0 : (inv.color == c0 && inv.size == s0) with
    | true =>
      rw [if_pos rfl]
      cases h1 : (inv.color == c && inv.size == s) with
      | true =>
        have hcc : (c == c0 && s == s0) = true := by
          have h0' := h0
          have h1' := h1
          simp only [Bool.and_eq_true, beq_iff_eq] at h0' h1' ⊢
          exact ⟨h1'.1.symm.trans h0'.1, h1'.2.symm.trans h0'.2⟩
        simp [List.find?_cons, h1, hcc]
      | false =>
        have hcc : (c == c0 && s == s0) = false := by
          rcases Bool.eq_false_or_eq_true (c == c0 && s == s0) with ht | hf
          · exfalso
            have h0' := h0
            have h1' := h1
            simp only [Bool.and_eq_true, beq_iff_eq] at h0' ht
            have hmm : (inv.color == c && inv.size == s) = true := by
              simp only [Bool.and_eq_true, beq_iff_eq]
              exact ⟨h0'.1.trans ht.1.symm, h0'.2.trans ht.2.symm⟩
            rw [hmm] at h1'
            exact Bool.true_eq_false.mp h1'
          · exact hf
        simp only [List.find?_cons, h1]
        simp [hcc]
    | false =>
      rw [if_neg (by simp)]
      cases h1 : (inv.color == c && inv.size == s) with
      | true =>
        have hcc : (c == c0 && s == s0) = false := by
          rcases Bool.eq_false_or_eq_true (c == c0 && s == s0) with ht | hf
          · exfalso
            have h0' := h0
            have h1' := h1
            simp only [Bool.and_eq_true, beq_iff_eq] at h1' ht
            have hmm : (inv.color == c0 && inv.size == s0) = true := by
              simp only [Bool.and_eq_true, beq_iff_eq]
              exact ⟨h1'.1.trans ht.1, h1'.2.trans ht.2⟩
            rw [hmm] at h0'
            exact Bool.true_eq_false.mp h0'
          · exact hf
        simp [List.find?_cons, h1, hcc]
      | false =>
        simp only [List.find?_cons, h1]
        exact ih c0 s0 c s

/-- Effect of one `product.save()` after `adjustStockFirst` on every stock
observation of the store. -/
theorem stockOf_save_adjust (st : State) (p : Product) (pid0 : Nat) (c0 s0 : String) (d : Int)
    (hp : findProduct st pid0 = some p) (pid : Nat) (c s : String) :
    stockOf (saveProduct st { p with inventory := adjustStockFirst d p.inventory c0 s0 }) pid c s =
      (stockOf st pid c s).map
        (fun v => if pid == pid0 && c == c0 && s == s0 then v + d else v) := by
  unfold findProduct at hp
  have hpp : p.id = pid0 := by simpa using List.find?_some hp
  unfold stockOf findProduct saveProduct
  rw [find?_save_list]
  cases hq : st.products.find? (fun q => q.id == pid) with
  | none => rfl
  | some q =>
    have hqid : q.id = pid := by simpa using List.find?_some hq
    cases h2 : (q.id == p.id) with
    | true =>
      have hqp2 : q.id = p.id := by simpa using h2
      have hpids : pid = pid0 := by rw [← hqid, hqp2, hpp]
      have hqp : q = p := by
        rw [hpids] at hq
        rw [hq] at hp
        exact Option.some_inj.mp hp
      subst hqp
      subst hpids
      simp only [beq_self_eq_true, if_true, Option.map_some', Option.some_bind]
      rw [find?_adjustStockFirst]
      cases he : q.inventory.find? (fun inv => inv.color == c && inv.size == s) with
      | none => rfl
      | some e =>
        simp only [Option.map_some']
        cases hcs : (c == c0 && s == s0) with
        | true => simp [hcs]
        | false => simp [hcs]
    | false =>
      have hne : (pid == pid0) = false := by
        rcases Bool.eq_false_or_eq_true (pid == pid0) with ht | hf
        · exfalso
          have hteq : pid = pid0 := by simpa using ht
          have hcontra : q.id = p.id := by rw [hqid, hteq, ← hpp]
          rw [show (q.id == p.id) = true by simpa using hcontra] at h2
          exact Bool.true_eq_false.mp h2
        · exact hf
      simp only [Option.map_some', Option.some_bind, h2, Bool.false_eq_true, if_false, hne,
        Bool.false_and]
      cases he : q.inventory.find? (fun inv => inv.color == c && inv.size == s) with
      | none => rfl
      | some e => simp

theorem creditSum_cons (st : State) (it : OrderItem) (rest : List OrderItem)
    (pid : Nat) (c s : String) :
    creditSum st (it :: rest) pid c s =
      (if it.product == pid && it.color == c && it.size == s &&
          (stockOf st it.product it.color it.size).isSome
        then it.quantity else 0) + creditSum st rest pid c s := by
  unfold creditSum
  cases hc : (it.product == pid && it.color == c && it.size == s &&
      (stockOf st it.product it.color it.size).isSome) with
  | true => simp [List.filter_cons, hc]
  | false => simp [List.filter_cons, hc]

theorem creditSum_congr (st1 st2 : State) (items : List OrderItem) (pid : Nat) (c s : String)
    (h : ∀ it : OrderItem, (stockOf st1 it.product it.color it.size).isSome =
        (stockOf st2 it.product it.color it.size).isSome) :
    creditSum st1 items pid c s = creditSum st2 items pid c s := by
  unfold creditSum
  rw [List.filter_congr (fun it _ => by rw [h it])]

theorem restoreItems_stockOf : ∀ (items : List OrderItem) (st : State),
    nonnegStockB st = true →
    ∀ (pid : Nat) (c s : String),
      stockOf (restoreItems st items).2 pid c s =
        (stockOf st pid c s).map
          (fun v => v + (creditSum st items pid c s : Int)) := by
  intro items
  induction items with
  | nil =>
    intro st h pid c s
    unfold restoreItems creditSum
    cases stockOf st pid c s <;> simp
  | cons it rest ih =>
    intro st h pid c s
    unfold restoreItems
    split
    · rename_i hp
      have hnone : stockOf st it.product it.color it.size = none := by
        unfold stockOf
        rw [hp]
        rfl
      rw [ih st h pid c s, creditSum_cons]
      simp [hnone]
    · rename_i p hp
      split
      · rename_i hee
        have hnone : stockOf st it.product it.color it.size = none := by
          unfold stockOf
          rw [hp]
          simp [hee]
        rw [ih st h pid c s, creditSum_cons]
        simp [hnone]
      · rename_i e hee
        have hsome : stockOf st it.product it.color it.size = some e.stock := by
          unfold stockOf
          rw [hp]
          simp [hee]
        have hmem : p ∈ st.products := List.mem_of_find?_eq_some hp
        have hpv : p.validStock = true := List.all_eq_true.mp h p hmem
        have hupd : Product.validStock
            { p with inventory :=
                adjustStockFirst (it.quantity : Int) p.inventory it.color it.size } = true := by
          unfold Product.validStock at hpv ⊢
          exact adjustStockFirst_valid _ (Int.natCast_nonneg _) _ _ _ hpv
        dsimp only
        simp only [hupd, if_true]
        rw [ih _ (saveProduct_nonneg st _ hupd h) pid c s]
        rw [stockOf_save_adjust st p it.product it.color it.size (it.quantity : Int) hp pid c s]
        rw [creditSum_congr (saveProduct st
              { p with inventory :=
                  adjustStockFirst (it.quantity : Int) p.inventory it.color it.size }) st rest pid c s
            (fun j => by
              rw [stockOf_save_adjust st p it.product it.color it.size (it.quantity : Int) hp
                j.product j.color j.size]
              cases stockOf st j.product j.color j.size <;> simp)]
        rw [creditSum_cons]
        cases hv : stockOf st pid c s with
        | none => rfl
        | some v =>
          simp only [Option.map_some', hsome, Option.isSome_some, Bool.and_true]
          cases hb2 : (it.product == pid && it.color == c && it.size == s) with
          | true =>
            have hb1 : (pid == it.product && c == it.color && s == it.size) = true := by
              rw [@Bool.beq_comm _ _ _ pid it.product, @Bool.beq_comm _ _ _ c it.color,
                @Bool.beq_comm _ _ _ s it.size]
              exact hb2
            simp only [hb1, hb2, if_true, Option.some.injEq]
            push_cast
            omega
          | false =>
            have hb1 : (pid == it.product && c == it.color && s == it.size) = false := by
              rw [@Bool.beq_comm _ _ _ pid it.product, @Bool.beq_comm _ _ _ c it.color,
                @Bool.beq_comm _ _ _ s it.size]
              exact hb2
            simp only [hb1, hb2, Bool.false_eq_true, if_false, Option.some.injEq]
            push_cast
            omega

end MDD

namespace MDD

/-- C10: cancelling an order whose payment was never confirmed (status still
`pending`, so the confirmation-time debit never ran) succeeds and credits
every matching inventory entry by the line item's quantity: every stock
observation grows by the summed quantities of the order's matching line
items, crediting inventory that was never debited. -/
theorem cancel_pending_credits_stock (st : State) (uid oid : Nat) (o : Order)
    (hfind : findOrder st oid = some o) (hown : o.user = uid)
    (hpend : o.orderStatus = OrderStatus.pending) (hnn : nonnegStockB st = true) :
    isOk (cancelOrder st uid oid).1 = true ∧
    ∀ (pid : Nat) (c s : String),
      stockOf (cancelOrder st uid oid).2 pid c s =
        (stockOf st pid c s).map
          (fun v => v + (creditSum st o.items pid c s : Int)) := by
  unfold cancelOrder
  rw [hfind]
  have hbo : (o.user != uid) = false := by simp [hown]
  have c1 : (o.orderStatus == OrderStatus.shipped) = false := by simp [hpend]
  have c2 : (o.orderStatus == OrderStatus.outForDelivery) = false := by simp [hpend]
  have c3 : (o.orderStatus == OrderStatus.delivered) = false := by simp [hpend]
  have c4 : (o.orderStatus == OrderStatus.cancelled) = false := by simp [hpend]
  have hr := restoreItems_ok_nonneg o.items
      (saveOrder st { o with orderStatus := OrderStatus.cancelled }) hnn
  dsimp only
  simp only [hbo, c1, c2, c3, c4, Bool.or_self, Bool.false_eq_true, if_false, Bool.false_or]
  rw [if_pos hr.1]
  constructor
  · rfl
  · intro pid c s
    exact restoreItems_stockOf o.items
      (saveOrder st { o with orderStatus := OrderStatus.cancelled }) hnn pid c s

theorem cancel_pending_credits_stock_witness :
    isOk (cancelOrder demoState 1 1).1 = true ∧
    stockOf (cancelOrder demoState 1 1).2 1 "Red" "M" = some 12 := by
  obtain ⟨h1, h2⟩ :=
    cancel_pending_credits_stock demoState 1 1 demoOrder (by decide) rfl rfl (by decide)
  refine ⟨h1, ?_⟩
  rw [h2 1 "Red" "M"]
  decide

end MDD

namespace MDD

theorem toDigitsCore_step (f n : Nat) (acc : List Char) :
    Nat.toDigitsCore 10 (f + 1) n acc =
      if n / 10 = 0 then Nat.digitChar (n % 10) :: acc
      else Nat.toDigitsCore 10 f (n / 10) (Nat.digitChar (n % 10) :: acc) := rfl

theorem padSeq_eq (n : Nat) (h : n < 10000) :
    jsPadStart (Nat.repr n) 4 '0' = String.mk (fourDigitChars n) := by
  have hrepr : Nat.repr n = (Nat.toDigitsCore 10 (n + 1) n []).asString := rfl
  rcases Nat.lt_or_ge n 10 with h1 | h1
  · have hd : Nat.toDigitsCore 10 (n + 1) n [] = [Nat.digitChar (n % 10)] := by
      rw [toDigitsCore_step]
      rw [if_pos (by omega)]
    unfold jsPadStart fourDigitChars
    rw [hrepr, hd]
    have e1 : n / 1000 % 10 = 0 := by omega
    have e2 : n / 100 % 10 = 0 := by omega
    have e3 : n / 10 % 10 = 0 := by omega
    rw [e1, e2, e3]
    have hz : Nat.digitChar 0 = '0' := by decide
    simp [List.asString, hz]
  rcases Nat.lt_or_ge n 100 with h2 | h2
  · obtain ⟨m, rfl⟩ := Nat.exists_eq_add_of_le h1
    have hd : Nat.toDigitsCore 10 (10 + m + 1) (10 + m) [] =
        [Nat.digitChar ((10 + m) / 10 % 10), Nat.digitChar ((10 + m) % 10)] := by
      rw [toDigitsCore_step]
      rw [if_neg (by omega)]
      have hf : 10 + m = (9 + m) + 1 := by omega
      rw [hf, toDigitsCore_step]
      rw [if_pos (by omega)]
    unfold jsPadStart fourDigitChars
    rw [hrepr, hd]
    have e1 : (10 + m) / 1000 % 10 = 0 := by omega
    have e2 : (10 + m) / 100 % 10 = 0 := by omega
    rw [e1, e2]
    have hz : Nat.digitChar 0 = '0' := by decide
    simp [List.asString, hz]
  rcases Nat.lt_or_ge n 1000 with h3 | h3
  · obtain ⟨m, rfl⟩ := Nat.exists_eq_add_of_le h2
    have hd : Nat.toDigitsCore 10 (100 + m + 1) (100 + m) [] =
        [Nat.digitChar ((100 + m) / 100 % 10), Nat.digitChar ((100 + m) / 10 % 10),
          Nat.digitChar ((100 + m) % 10)] := by
      rw [toDigitsCore_step]
      rw [if_neg (by omega)]
      have hf1 : 100 + m = (99 + m) + 1 := by omega
      rw [hf1, toDigitsCore_step]
      rw [if_neg (by omega)]
      have hf2 : 99 + m = (98 + m) + 1 := by omega
      rw [hf2, toDigitsCore_step]
      rw [if_pos (by omega)]
      have ea : ((98 + m + 1) + 1) / 10 / 10 % 10 = ((98 + m + 1) + 1) / 100 % 10 := by omega
      have eb : ((98 + m + 1) + 1) / 10 % 10 = ((98 + m + 1) + 1) / 10 % 10 := rfl
      rw [ea]
    unfold jsPadStart fourDigitChars
    rw [hrepr, hd]
    have e1 : (100 + m) / 1000 % 10 = 0 := by omega
    rw [e1]
    have hz : Nat.digitChar 0 = '0' := by decide
    simp [List.asString, hz]
  · obtain ⟨m, rfl⟩ := Nat.exists_eq_add_of_le h3
    have hd : Nat.toDigitsCore 10 (1000 + m + 1) (1000 + m) [] =
        [Nat.digitChar ((1000 + m) / 1000 % 10), Nat.digitChar ((1000 + m) / 100 % 10),
          Nat.digitChar ((1000 + m) / 10 % 10), Nat.digitChar ((1000 + m) % 10)] := by
      rw [toDigitsCore_step]
      rw [if_neg (by omega)]
      have hf1 : 1000 + m = (999 + m) + 1 := by omega
      rw [hf1, toDigitsCore_step]
      rw [if_neg (by omega)]
      have hf2 : 999 + m = (998 + m) + 1 := by omega
      rw [hf2, toDigitsCore_step]
      rw [if_neg (by omega)]
      have hf3 : 998 + m = (997 + m) + 1 := by omega
      rw [hf3, toDigitsCore_step]
      rw [if_pos (by omega)]
      have ea : ((997 + m + 1) + 1 + 1) / 10 / 10 / 10 % 10 =
          ((997 + m + 1) + 1 + 1) / 1000 % 10 := by omega
      have eb : ((997 + m + 1) + 1 + 1) / 10 / 10 % 10 =
          ((997 + m + 1) + 1 + 1) / 100 % 10 := by omega
      rw [ea, eb]
    unfold jsPadStart fourDigitChars
    rw [hrepr, hd]
    simp [List.asString]

end MDD

namespace MDD

theorem jsParseInt_digits4 (a b c d : Nat) (ha : a < 10) (hb : b < 10)
    (hc : c < 10) (hd : d < 10) :
    jsParseInt (String.mk [Nat.digitChar a, Nat.digitChar b, Nat.digitChar c,
        Nat.digitChar d]) = some (((a * 10 + b) * 10 + c) * 10 + d) := by
  have hdig : ∀ k, k < 10 → (Nat.digitChar k).isDigit = true := by decide
  have hval : ∀ k, k < 10 → digitVal (Nat.digitChar k) = k := by decide
  unfold jsParseInt
  simp only [List.takeWhile_cons, hdig a ha, hdig b hb, hdig c hc, hdig d hd,
    if_true, List.takeWhile_nil, List.isEmpty_cons, List.foldl_cons, List.foldl_nil,
    hval a ha, hval b hb, hval c hc, hval d hd]
  simp [hval a ha, hval b hb, hval c hc, hval d hd]

theorem fourDigitChars_all_digits (n : Nat) :
    (fourDigitChars n).all Char.isDigit = true := by
  have hdig : ∀ k, k < 10 → (Nat.digitChar k).isDigit = true := by decide
  unfold fourDigitChars
  simp [hdig _ (Nat.mod_lt _ (by omega)), List.all_cons]

theorem jsParseInt_fourDigitChars (n : Nat) (h : n < 10000) :
    jsParseInt (String.mk (fourDigitChars n)) = some n := by
  unfold fourDigitChars
  rw [jsParseInt_digits4 _ _ _ _ (Nat.mod_lt _ (by omega)) (Nat.mod_lt _ (by omega))
    (Nat.mod_lt _ (by omega)) (Nat.mod_lt _ (by omega))]
  congr 1
  omega

theorem jsSliceLast_append (a : String) (l : List Char) :
    jsSliceLast (a ++ String.mk l) l.length = String.mk l := by
  unfold jsSliceLast
  have hdata : (a ++ String.mk l).data = a.data ++ l := rfl
  rw [hdata]
  have hlen : (a.data ++ l).length - l.length = a.data.length := by
    simp
  rw [hlen]
  rw [List.drop_left]

/-- Format of the rendered sequence for values below 10000: four digit
characters that parse back to the value. -/
theorem seqRender_format (k : Nat) (h : k < 10000) :
    seqRender (some k) = String.mk (fourDigitChars k) ∧
    (seqRender (some k)).data.length = 4 ∧
    (seqRender (some k)).data.all Char.isDigit = true ∧
    jsParseInt (seqRender (some k)) = some k := by
  have he : seqRender (some k) = String.mk (fourDigitChars k) := padSeq_eq k h
  refine ⟨he, ?_, ?_, ?_⟩
  · rw [he]; rfl
  · rw [he]
    exact fourDigitChars_all_digits k
  · rw [he]
    exact jsParseInt_fourDigitChars k h

end MDD

namespace MDD

theorem charListLtb_cons (a b : Char) (as bs : List Char) :
    charListLtb (a :: as) (b :: bs) =
      if a < b then true else if b < a then false else charListLtb as bs := rfl

theorem charListLtb_append (pfx : List Char) :
    ∀ (x y : List Char), charListLtb (pfx ++ x) (pfx ++ y) = charListLtb x y := by
  induction pfx with
  | nil => intro x y; rfl
  | cons ch rest ih =>
    intro x y
    show charListLtb (ch :: (rest ++ x)) (ch :: (rest ++ y)) = charListLtb x y
    rw [charListLtb_cons, if_neg (lt_irrefl ch), if_neg (lt_irrefl ch), ih]

theorem charListLtb_fourDigitChars (m k : Nat) (hm : m < 10000) (hk : k < 10000) :
    charListLtb (fourDigitChars m) (fourDigitChars k) = decide (m < k) := by
  have hlt : ∀ a, a < 10 → ∀ b, b < 10 →
      ((Nat.digitChar a < Nat.digitChar b) ↔ a < b) := by decide
  have h10 : ∀ j : Nat, j % 10 < 10 := fun j => Nat.mod_lt _ (by omega)
  unfold fourDigitChars
  rw [charListLtb_cons]
  by_cases e3 : m / 1000 % 10 < k / 1000 % 10
  · rw [if_pos ((hlt _ (h10 _) _ (h10 _)).mpr e3)]
    have hl : m < k := by omega
    simp [hl]
  · rw [if_neg (fun hcl => e3 ((hlt _ (h10 _) _ (h10 _)).mp hcl))]
    by_cases e3' : k / 1000 % 10 < m / 1000 % 10
    · rw [if_pos ((hlt _ (h10 _) _ (h10 _)).mpr e3')]
      have hl : ¬ m < k := by omega
      simp [hl]
    · rw [if_neg (fun hcl => e3' ((hlt _ (h10 _) _ (h10 _)).mp hcl))]
      rw [charListLtb_cons]
      by_cases e2 : m / 100 % 10 < k / 100 % 10
      · rw [if_pos ((hlt _ (h10 _) _ (h10 _)).mpr e2)]
        have hl : m < k := by omega
        simp [hl]
      · rw [if_neg (fun hcl => e2 ((hlt _ (h10 _) _ (h10 _)).mp hcl))]
        by_cases e2' : k / 100 % 10 < m / 100 % 10
        · rw [if_pos ((hlt _ (h10 _) _ (h10 _)).mpr e2')]
          have hl : ¬ m < k := by omega
          simp [hl]
        · rw [if_neg (fun hcl => e2' ((hlt _ (h10 _) _ (h10 _)).mp hcl))]
          rw [charListLtb_cons]
          by_cases e1 : m / 10 % 10 < k / 10 % 10
          · rw [if_pos ((hlt _ (h10 _) _ (h10 _)).mpr e1)]
            have hl : m < k := by omega
            simp [hl]
          · rw [if_neg (fun hcl => e1 ((hlt _ (h10 _) _ (h10 _)).mp hcl))]
            by_cases e1' : k / 10 % 10 < m / 10 % 10
            · rw [if_pos ((hlt _ (h10 _) _ (h10 _)).mpr e1')]
              have hl : ¬ m < k := by omega
              simp [hl]
            · rw [if_neg (fun hcl => e1' ((hlt _ (h10 _) _ (h10 _)).mp hcl))]
              rw [charListLtb_cons]
              by_cases e0 : m % 10 < k % 10
              · rw [if_pos ((hlt _ (h10 _) _ (h10 _)).mpr e0)]
                have hl : m < k := by omega
                simp [hl]
              · rw [if_neg (fun hcl => e0 ((hlt _ (h10 _) _ (h10 _)).mp hcl))]
                by_cases e0' : k % 10 < m % 10
                · rw [if_pos ((hlt _ (h10 _) _ (h10 _)).mpr e0')]
                  have hl : ¬ m < k := by omega
                  simp [hl]
                · rw [if_neg (fun hcl => e0' ((hlt _ (h10 _) _ (h10 _)).mp hcl))]
                  have hl : ¬ m < k := by omega
                  simp [hl, charListLtb]

/-- On values below 10000, the character-wise comparison of rendered
sequences is the numeric comparison. -/
theorem strLtb_seqRender (m k : Nat) (hm : m < 10000) (hk : k < 10000) (pfx : String) :
    strLtb (pfx ++ seqRender (some m)) (pfx ++ seqRender (some k)) = decide (m < k) := by
  have hem := (seqRender_format m hm).1
  have hek := (seqRender_format k hk).1
  unfold strLtb
  rw [hem, hek]
  have hdm : (pfx ++ String.mk (fourDigitChars m)).data = pfx.data ++ fourDigitChars m := rfl
  have hdk : (pfx ++ String.mk (fourDigitChars k)).data = pfx.data ++ fourDigitChars k := rfl
  rw [hdm, hdk, charListLtb_append, charListLtb_fourDigitChars m k hm hk]

end MDD

namespace MDD

theorem foldl_max_le : ∀ (rest : List Nat) (a B : Nat), a ≤ B → (∀ x ∈ rest, x ≤ B) →
    rest.foldl Nat.max a ≤ B
  | [], _, _, ha, _ => ha
  | x :: rest, a, B, ha, hall => by
    apply foldl_max_le rest (Nat.max a x) B
    · exact Nat.max_le.mpr ⟨ha, hall x (by simp)⟩
    · intro y hy
      exact hall y (by simp [hy])

theorem lexMaxStr_fold (pfx : String) :
    ∀ (seqs : List Nat) (a : Nat), a ≤ 9998 → (∀ x ∈ seqs, x ≤ 9998) →
    List.foldl
        (fun acc s =>
          match acc with
          | none => some s
          | some m => if strLtb m s then some s else some m)
        (some (pfx ++ seqRender (some a))) (seqs.map (fun n => pfx ++ seqRender (some n))) =
      some (pfx ++ seqRender (some (seqs.foldl Nat.max a))) := by
  intro seqs
  induction seqs with
  | nil => intro a ha hall; rfl
  | cons n rest ih =>
    intro a ha hall
    have hn : n ≤ 9998 := hall n (by simp)
    have hrest : ∀ x ∈ rest, x ≤ 9998 := fun x hx => hall x (by simp [hx])
    have hcmp : strLtb (pfx ++ seqRender (some a)) (pfx ++ seqRender (some n)) =
        decide (a < n) := strLtb_seqRender a n (by omega) (by omega) pfx
    simp only [List.map_cons, List.foldl_cons]
    by_cases hlt : a < n
    · rw [hcmp, if_pos (decide_eq_true hlt), show a.max n = n from if_pos (Nat.le_of_lt hlt)]
      exact ih n hn hrest
    · rw [hcmp, if_neg (fun h => hlt (of_decide_eq_true h)), show a.max n = a from by
          by_cases hle : a ≤ n
          · exact (if_pos hle).trans (by omega)
          · exact if_neg hle]
      exact ih a ha hrest

/-- C7 (amended): whenever every existing order number in the current
(year, month) bucket is `MDD<YY><MM>` followed by the 4-digit zero-padded
rendering of a sequence value at most 9998, the generated order number is
the bucket prefix followed by the 4-digit zero-padded rendering of one plus
the highest existing sequence (1 for an empty bucket), and that rendered
sequence block is exactly four decimal digits parsing back to its value.
(Beyond 9999 the format breaks, see the counterexample.) -/
theorem order_number_sequence (existing : List String) (y mo : String) (seqs : List Nat)
    (hbucket : existing.filter (fun s => strStartsWith s ("MDD" ++ y ++ mo)) =
      seqs.map (fun n => ("MDD" ++ y ++ mo) ++ seqRender (some n)))
    (hbound : ∀ n ∈ seqs, n ≤ 9998) :
    generateOrderNumber existing y mo =
      ("MDD" ++ y ++ mo) ++ seqRender (some (seqs.foldl Nat.max 0 + 1)) ∧
    (seqRender (some (seqs.foldl Nat.max 0 + 1))).data.length = 4 ∧
    (seqRender (some (seqs.foldl Nat.max 0 + 1))).data.all Char.isDigit = true ∧
    jsParseInt (seqRender (some (seqs.foldl Nat.max 0 + 1))) =
      some (seqs.foldl Nat.max 0 + 1) := by
  have hmax : seqs.foldl Nat.max 0 ≤ 9998 := foldl_max_le seqs 0 9998 (by omega) hbound
  have hfmt := seqRender_format (seqs.foldl Nat.max 0 + 1) (by omega)
  refine ⟨?_, hfmt.2.1, hfmt.2.2.1, hfmt.2.2.2⟩
  unfold generateOrderNumber lexMaxStr
  dsimp only
  rw [hbucket]
  cases seqs with
  | nil => rfl
  | cons n rest =>
    have hn : n ≤ 9998 := hbound n (by simp)
    have hrest : ∀ x ∈ rest, x ≤ 9998 := fun x hx => hbound x (by simp [hx])
    simp only [List.map_cons, List.foldl_cons]
    rw [lexMaxStr_fold ("MDD" ++ y ++ mo) rest n hn hrest]
    dsimp only
    have hM : rest.foldl Nat.max n ≤ 9998 := foldl_max_le rest n 9998 hn hrest
    have hren := (seqRender_format (rest.foldl Nat.max n) (by omega)).1
    rw [hren]
    have hl4 : (fourDigitChars (rest.foldl Nat.max n)).length = 4 := rfl
    rw [show (4 : Nat) = (fourDigitChars (rest.foldl Nat.max n)).length from hl4.symm,
      jsSliceLast_append, jsParseInt_fourDigitChars _ (by omega)]
    simp only [Option.map_some']
    rw [show Nat.max 0 n = n from if_pos (Nat.zero_le n)]

end MDD

namespace MDD

theorem order_number_sequence_witness :
    generateOrderNumber [] "25" "06" = "MDD25060001" ∧
    generateOrderNumber ["MDD25060001"] "25" "06" = "MDD25060002" := by
  have h1 := order_number_sequence [] "25" "06" [] (by decide) (by decide)
  have h2 := order_number_sequence ["MDD25060001"] "25" "06" [1] (by decide) (by decide)
  refine ⟨?_, ?_⟩
  · rw [h1.1]
    decide
  · rw [h2.1]
    decide

end MDD
